import Mathlib

/-!
Verification of the mount path of the ntfs3 out-of-tree driver
(`src/ntfs3-oot/super.c`), as a shallow embedding in Lean.

Machine integers are modelled as `Nat` with explicit reduction `% 2^32`
(resp. `% 2^64`) at the points where the C code performs 32-bit
(resp. 64-bit) arithmetic that can overflow.  Signed bytes (`s8`) are
modelled as `Int` restricted to `[-128, 127]` by hypotheses where needed.
Fallible C functions returning `0` / negative errno are modelled as
`Except Errno`.

C shift expressions whose shift count can reach or exceed the width of
the shifted type (undefined behaviour in C) are modelled with the
hardware behaviour of the platforms this driver runs on (x86/arm64),
which mask the shift count modulo the type width; see `shl32`.
-/

set_option autoImplicit false

namespace Ntfs3

/-- Kernel error codes used by the mount path of `super.c` (the C code
returns their negations: `-EINVAL`, `-EIO`, `-ENOMEM`). -/
inductive Errno where
  | EINVAL
  | EIO_dev
  | ENOMEM
  deriving DecidableEq

/-- Discriminates a successful `Except` result without naming the value. -/
def exceptOk {ε α : Type} : Except ε α → Bool
  | .ok _ => true
  | .error _ => false

deriving instance DecidableEq for Except

/-! ### Shared memory table (`s_shared`, `ntfs_set_shared`, `ntfs_put_shared`)

`super.c` lines 117-181.  A slot of the global 8-entry array `s_shared`
holds a pointer, a length and a reference count; a zeroed slot
(`cnt == 0`) is free.  Pointers are modelled as `Nat` identifiers; the
byte contents behind a pointer are supplied by an ambient read-only
memory `mem : Nat → List Nat`, so `memcmp(p, q, n)` becomes equality of
the first `n` bytes of `mem p` and `mem q`. -/

/-- One slot of the global `s_shared` array: `{ void *ptr; u32 len; int cnt; }`. -/
structure SharedSlot where
  ptr : Nat
  len : Nat
  cnt : Nat
  deriving DecidableEq

/-- The zero-initialized global `s_shared[8]` array. -/
def s_shared_init : List SharedSlot :=
  [{ ptr := 0, len := 0, cnt := 0 }, { ptr := 0, len := 0, cnt := 0 },
   { ptr := 0, len := 0, cnt := 0 }, { ptr := 0, len := 0, cnt := 0 },
   { ptr := 0, len := 0, cnt := 0 }, { ptr := 0, len := 0, cnt := 0 },
   { ptr := 0, len := 0, cnt := 0 }, { ptr := 0, len := 0, cnt := 0 }]

/-- The match test of the `ntfs_set_shared` loop: an occupied slot
(`s_shared[i].cnt`) whose length equals `bytes` and whose contents equal
the candidate's (`!memcmp(s_shared[i].ptr, ptr, bytes)`). -/
def slot_matches (mem : Nat → List Nat) (p bytes : Nat) (s : SharedSlot) : Bool :=
  s.cnt != 0 && (bytes == s.len && (mem s.ptr).take bytes == (mem p).take bytes)

/-- The scan of `ntfs_set_shared` up to its `break`: find the first
matching slot, increment its count, and report the stored pointer.
`none` means no slot matched. -/
def set_shared_go (mem : Nat → List Nat) (p bytes : Nat) :
    List SharedSlot → Option (List SharedSlot × Nat)
  | [] => none
  | s :: rest =>
    if slot_matches mem p bytes s then
      some ({ s with cnt := s.cnt + 1 } :: rest, s.ptr)
    else
      match set_shared_go mem p bytes rest with
      | some (rest', r) => some (s :: rest', r)
      | none => none

/-- Installation step of `ntfs_set_shared`: the C loop keeps updating
`j` at every free slot it passes, so when no slot matches, the candidate
is installed in the *last* free slot.  `none` means no free slot. -/
def install_last_free (p bytes : Nat) :
    List SharedSlot → Option (List SharedSlot)
  | [] => none
  | s :: rest =>
    match install_last_free p bytes rest with
    | some rest' => some (s :: rest')
    | none =>
      if s.cnt = 0 then some ({ ptr := p, len := bytes, cnt := 1 } :: rest)
      else none

/-- `ntfs_set_shared` (`super.c` lines 131-157): returns the updated
array together with the returned pointer (`some` the stored or candidate
pointer, `none` for the C `NULL` "not shared" result). -/
def ntfs_set_shared (mem : Nat → List Nat) (reg : List SharedSlot)
    (p bytes : Nat) : List SharedSlot × Option Nat :=
  match set_shared_go mem p bytes reg with
  | some (reg', r) => (reg', some r)
  | none =>
    match install_last_free p bytes reg with
    | some reg' => (reg', some p)
    | none => (reg, none)

/-- The scan of `ntfs_put_shared` up to its `break`: find the first
occupied slot holding `p`, decrement its count, and report the result of
the `--cnt` test (`none` for C `NULL` when still referenced, `some p`
when the count reached zero).  Outer `none` means no slot held `p`. -/
def put_shared_go (p : Nat) :
    List SharedSlot → Option (List SharedSlot × Option Nat)
  | [] => none
  | s :: rest =>
    if s.cnt != 0 && s.ptr == p then
      some ({ s with cnt := s.cnt - 1 } :: rest,
            if s.cnt - 1 != 0 then none else some p)
    else
      match put_shared_go p rest with
      | some (rest', r) => some (s :: rest', r)
      | none => none

/-- `ntfs_put_shared` (`super.c` lines 165-181): `ret` starts as `ptr`
and is only cleared when a matching slot's decremented count is still
nonzero; when no slot holds `ptr` the pointer is returned unchanged. -/
def ntfs_put_shared (reg : List SharedSlot) (p : Nat) :
    List SharedSlot × Option Nat :=
  match put_shared_go p reg with
  | some (reg', r) => (reg', r)
  | none => (reg, some p)

/-! ### Boot sector geometry (`true_sectors_per_clst`, `ntfs_init_from_boot`)

`super.c` lines 689-897, together with the fixed on-disk layout of
`struct NTFS_BOOT` (its header `ntfs.h` is not part of this excerpt; the
fields referenced by `super.c` are modelled with their on-disk widths:
`sectors_per_clusters` is an unsigned byte — the comparison
`<= 0x80` in `true_sectors_per_clst` is only meaningful for an unsigned
field — and `record_size` / `index_size` are signed bytes, as they are
compared against `0`). -/

/-- Reduction of 32-bit unsigned C arithmetic. -/
def u32 (n : Nat) : Nat := n % 2 ^ 32

/-- Reduction of 64-bit unsigned C arithmetic. -/
def u64 (n : Nat) : Nat := n % 2 ^ 64

/-- A 32-bit C left shift `a << k`.  For `k ≥ 32` the C expression is
undefined behaviour; x86 and arm64 mask the count modulo 32, which is
the behaviour modelled here (the driver's checks keep well-formed boot
sectors away from that range). -/
def shl32 (a k : Nat) : Nat := u32 (a <<< (k % 32))

/-- Fuelled structural version of the kernel's `blksize_bits` do-while
loop (`bits = 8; do { bits++; size >>= 1; } while (size > 256);`).
The fuel `size` dominates the number of halvings, so the fuel never runs
out; a structural definition is used so that the kernel evaluator can
reduce it. -/
def blkbits_go : Nat → Nat → Nat → Nat
  | 0, _, bits => bits
  | fuel + 1, size, bits =>
    if 256 < size then blkbits_go fuel (size / 2) (bits + 1) else bits

/-- Kernel helper `blksize_bits(size)`: the block-size order (log2 for
powers of two at least 512). -/
def blksize_bits (size : Nat) : Nat := blkbits_go size (size / 2) 9

/-- Fuelled halving loop deciding whether `n` is a power of two. -/
def pow2_go : Nat → Nat → Bool
  | 0, _ => false
  | fuel + 1, n =>
    if n = 1 then true
    else if n % 2 = 0 && n != 0 then pow2_go fuel (n / 2)
    else false

/-- Kernel helper `is_power_of2(n)` (`n != 0 && ((n & (n - 1)) == 0)`),
modelled by its documented meaning: `n` is `2^k` for some `k` (`0` is
not a power of two).  `is_power_of2_iff` below establishes that
characterisation. -/
def is_power_of2 (n : Nat) : Bool := pow2_go (n + 1) n

/-- `QuadAlign(n)`: align `n` up to a multiple of 8. -/
def QuadAlign (n : Nat) : Nat := (n + 7) / 8 * 8

/-- `SECTOR_SIZE` (512) of the block layer. -/
def SECTOR_SIZE : Nat := 512

/-- `SECTOR_SHIFT` (9) of the block layer. -/
def SECTOR_SHIFT : Nat := 9

/-- `PAGE_SIZE` on the modelled configuration (4096). -/
def PAGE_SIZE : Nat := 4096

/-- `PAGE_SHIFT` on the modelled configuration (12). -/
def PAGE_SHIFT : Nat := 12

/-- `MAXIMUM_BYTES_PER_MFT` from `ntfs.h` (not in this excerpt): 4096. -/
def MAXIMUM_BYTES_PER_MFT : Nat := 4096

/-- `MFTRECORD_FIXUP_OFFSET_1` from `ntfs.h` (not in this excerpt): the
offset of the first fixup array inside an MFT record, 0x2A. -/
def MFTRECORD_FIXUP_OFFSET_1 : Nat := 42

/-- The fields of `struct NTFS_BOOT` read by `ntfs_init_from_boot`.
`system_id` is the 8-byte signature area; multi-byte little-endian
fields are modelled by their decoded values (`le64_to_cpu` is the
identity on the model), except `bytes_per_sector`, whose two bytes the
code inspects separately. -/
structure NTFS_BOOT where
  system_id : List Nat
  bytes_per_sector0 : Nat
  bytes_per_sector1 : Nat
  sectors_per_clusters : Nat
  record_size : Int
  index_size : Int
  mft_clst : Nat
  mft2_clst : Nat
  sectors_per_volume : Nat
  serial_num : Nat
  deriving DecidableEq

/-- The bytes of the `"NTFS    "` signature compared by `memcmp` at
`super.c` line 732. -/
def ntfs_signature : List Nat := [0x4E, 0x54, 0x46, 0x53, 0x20, 0x20, 0x20, 0x20]

/-- `true_sectors_per_clst` (`super.c` lines 703-708):
`boot->sectors_per_clusters <= 0x80 ? boot->sectors_per_clusters
: (1u << (0 - boot->sectors_per_clusters))`.  The field is an unsigned
byte, so for values above `0x80` the C shift count `0 - v` is negative;
masked modulo 32 it equals `(256 - v) % 32`. -/
def true_sectors_per_clst (v : Nat) : Nat :=
  if v ≤ 0x80 then v else shl32 1 (256 - v)

/-- `boot_sector_size = (u32)boot->bytes_per_sector[1] << 8`
(`super.c` line 740). -/
def derived_sector_size (b : NTFS_BOOT) : Nat :=
  u32 (b.bytes_per_sector1 <<< 8)

/-- `sbi->cluster_size = boot_sector_size * sct_per_clst`
(`super.c` line 791), a `u32` product. -/
def derived_cluster_size (b : NTFS_BOOT) : Nat :=
  u32 (derived_sector_size b * true_sectors_per_clst b.sectors_per_clusters)

/-- `fs_size = (sectors + 1) << sbi->sector_bits` (`super.c` line 776),
a `u64` value. -/
def derived_fs_size (b : NTFS_BOOT) : Nat :=
  u64 ((b.sectors_per_volume + 1) <<< blksize_bits (derived_sector_size b))

/-- `sbi->record_size` (`super.c` lines 802-805): negative signed byte
encodes `1 << (-record_size)` bytes, non-negative counts clusters. -/
def derived_record_size (b : NTFS_BOOT) : Nat :=
  if b.record_size < 0 then shl32 1 (- b.record_size).toNat
  else u32 (b.record_size.toNat <<< blksize_bits (derived_cluster_size b))

/-- `sbi->index_size` (`super.c` lines 818-820), same encoding as
`record_size`. -/
def derived_index_size (b : NTFS_BOOT) : Nat :=
  if b.index_size < 0 then shl32 1 (- b.index_size).toNat
  else u32 (b.index_size.toNat <<< blksize_bits (derived_cluster_size b))

/-- `sbi->volume.size = sectors << sbi->sector_bits` (`super.c`
line 823). -/
def derived_volume_size (b : NTFS_BOOT) : Nat :=
  u64 (b.sectors_per_volume <<< blksize_bits (derived_sector_size b))

/-- `clusters = sbi->volume.size >> sbi->cluster_bits` (`super.c`
line 837). -/
def derived_clusters (b : NTFS_BOOT) : Nat :=
  derived_volume_size b >>> blksize_bits (derived_cluster_size b)

/-- The block size installed by `sb_set_blocksize` (`super.c` lines
872-873): the cluster size when it is below `PAGE_SIZE`, otherwise the
`PAGE_SIZE` set before parsing (line 951). -/
def derived_blocksize (b : NTFS_BOOT) : Nat :=
  if derived_cluster_size b < PAGE_SIZE then derived_cluster_size b else PAGE_SIZE

/-- The device size after the adjustment of `super.c` lines 785-789:
`if (sbi->sector_size != sector_size) dev_size += sector_size - 1;`. -/
def adjusted_dev_size (b : NTFS_BOOT) (sector_size dev_size : Nat) : Nat :=
  if derived_sector_size b ≠ sector_size then dev_size + sector_size - 1
  else dev_size

/-- The outputs of a successful `ntfs_init_from_boot`: the fields of
`ntfs_sb_info` (and of the pre-stamped scratch MFT record template)
assigned by `super.c` lines 774-891.  `forced_ro` records whether
`SB_RDONLY` was forced by the RAW-volume check at lines 826-835. -/
structure NtfsGeometry where
  sector_size : Nat
  sector_bits : Nat
  cluster_size : Nat
  cluster_bits : Nat
  cluster_mask : Nat
  cluster_mask_inv : Nat
  mft_lbo : Nat
  mft_lbo2 : Nat
  record_size : Nat
  record_bits : Nat
  attr_size_tr : Nat
  max_bytes_per_attr : Nat
  index_size : Nat
  ser_num : Nat
  volume_size : Nat
  used_bitmap_nbits : Nat
  rec_fix_num : Nat
  rec_attr_off : Nat
  rec_used : Nat
  rec_total : Nat
  s_blocksize : Nat
  block_mask : Nat
  blocks_per_cluster : Nat
  volume_blocks : Nat
  maxbytes : Nat
  maxbytes_sparse : Nat
  forced_ro : Bool
  deriving DecidableEq

/-- The geometry assignments a successful `ntfs_init_from_boot` commits
to `ntfs_sb_info` (`super.c` lines 774-891).  `dev_size` feeds only the
RAW-volume read-only forcing of lines 826-835. -/
def mk_geometry (boot : NTFS_BOOT) (sector_size dev_size : Nat) : NtfsGeometry := {
  sector_size := derived_sector_size boot
  sector_bits := blksize_bits (derived_sector_size boot)
  cluster_size := derived_cluster_size boot
  cluster_bits := blksize_bits (derived_cluster_size boot)
  cluster_mask := derived_cluster_size boot - 1
  cluster_mask_inv := 2 ^ 64 - derived_cluster_size boot
  mft_lbo := u64 (boot.mft_clst <<< blksize_bits (derived_cluster_size boot))
  mft_lbo2 := u64 (boot.mft2_clst <<< blksize_bits (derived_cluster_size boot))
  record_size := derived_record_size boot
  record_bits := blksize_bits (derived_record_size boot)
  attr_size_tr := 5 * derived_record_size boot >>> 4
  max_bytes_per_attr := derived_record_size boot -
    QuadAlign MFTRECORD_FIXUP_OFFSET_1 -
    QuadAlign ((derived_record_size boot >>> SECTOR_SHIFT) * 2) - QuadAlign 4
  index_size := derived_index_size boot
  ser_num := boot.serial_num
  volume_size := derived_volume_size boot
  used_bitmap_nbits := derived_clusters boot
  rec_fix_num := (derived_record_size boot >>> SECTOR_SHIFT) + 1
  rec_attr_off := QuadAlign (MFTRECORD_FIXUP_OFFSET_1 +
    2 * ((derived_record_size boot >>> SECTOR_SHIFT) + 1))
  rec_used := QuadAlign (MFTRECORD_FIXUP_OFFSET_1 +
    2 * ((derived_record_size boot >>> SECTOR_SHIFT) + 1)) + QuadAlign 4
  rec_total := derived_record_size boot
  s_blocksize := derived_blocksize boot
  block_mask := derived_blocksize boot - 1
  blocks_per_cluster :=
    derived_cluster_size boot >>> blksize_bits (derived_blocksize boot)
  volume_blocks :=
    derived_volume_size boot >>> blksize_bits (derived_blocksize boot)
  maxbytes := (u64 (derived_clusters boot <<<
    blksize_bits (derived_cluster_size boot)) + 2 ^ 64 - 1) % 2 ^ 64
  maxbytes_sparse := (u64 (1 <<<
    (blksize_bits (derived_cluster_size boot) + 32)) + 2 ^ 64 - 1) % 2 ^ 64
  forced_ro :=
    adjusted_dev_size boot sector_size dev_size < derived_fs_size boot
}

/-- `ntfs_init_from_boot` (`super.c` lines 711-897) on the modelled
32-bits-per-cluster configuration (`NTFS3_64BIT_CLUSTER` undefined).
`alloc_ok` models the success of the `ntfs_alloc(record_size, 1)` call
for the scratch record template (line 855); the `ntfs_bread` of sector
0 is modelled as succeeding, its content being the `boot` argument. -/
def ntfs_init_from_boot (boot : NTFS_BOOT) (sector_size dev_size : Nat)
    (alloc_ok : Bool) : Except Errno NtfsGeometry :=
  if boot.system_id ≠ ntfs_signature then .error .EINVAL
  else if boot.bytes_per_sector0 ≠ 0 ∨ derived_sector_size boot < SECTOR_SIZE ∨
      ¬ is_power_of2 (derived_sector_size boot) then .error .EINVAL
  else if ¬ is_power_of2 (true_sectors_per_clst boot.sectors_per_clusters) then
    .error .EINVAL
  else if u64 (boot.mft_clst * true_sectors_per_clst boot.sectors_per_clusters) ≥
      boot.sectors_per_volume then .error .EINVAL
  else if u64 (boot.mft2_clst * true_sectors_per_clst boot.sectors_per_clusters) ≥
      boot.sectors_per_volume then .error .EINVAL
  else if (boot.record_size < 0 ∧
        SECTOR_SIZE > shl32 2 (- boot.record_size).toNat) ∨
      (boot.record_size ≥ 0 ∧ ¬ is_power_of2 boot.record_size.toNat) then
    .error .EINVAL
  else if (boot.index_size < 0 ∧
        SECTOR_SIZE > shl32 2 (- boot.index_size).toNat) ∨
      (boot.index_size ≥ 0 ∧ ¬ is_power_of2 boot.index_size.toNat) then
    .error .EINVAL
  else if derived_cluster_size boot < derived_sector_size boot then .error .EINVAL
  else if derived_record_size boot > MAXIMUM_BYTES_PER_MFT then .error .EINVAL
  else if derived_clusters boot >>> 32 ≠ 0 then .error .EINVAL
  else if ¬ alloc_ok then .error .ENOMEM
  else .ok (mk_geometry boot sector_size dev_size)

/-- The sector/cluster invariants enforced by `ntfs_init_from_boot`'s
checks at lines 740-748 and 791-798: the derived sector size is a power
of two of at least `SECTOR_SIZE`, the decoded sectors-per-cluster count
is a power of two, and the derived cluster size is at least the sector
size. -/
def geometry_checks (boot : NTFS_BOOT) : Prop :=
  is_power_of2 (derived_sector_size boot) = true ∧
  is_power_of2 (true_sectors_per_clst boot.sectors_per_clusters) = true ∧
  SECTOR_SIZE ≤ derived_sector_size boot ∧
  derived_sector_size boot ≤ derived_cluster_size boot

/-- The decoding of the sectors-per-cluster byte described by the
specification's words: interpret the byte as a signed value `v`; a
positive `v` is the literal count, a non-positive `v` denotes `2^(-v)`.
This is the spec-side definition used to compare against the code's
`true_sectors_per_clst`. -/
def spec_signed_decode (b : Nat) : Nat :=
  if 0 < (if b < 128 then (b : Int) else (b : Int) - 256) then b
  else 2 ^ (- (if b < 128 then (b : Int) else (b : Int) - 256)).toNat

/-! ### Journal replay gate (`ntfs_fill_super`, lines 1066-1083) -/

/-- The journal gate of `ntfs_fill_super` (`super.c` lines 1066-1083):
`need_replay` is `sbi->flags & NTFS_FLAGS_NEED_REPLAY`, `dirty` is
`sbi->volume.flags & VOLUME_FLAG_DIRTY`, `is_ro` is `sb_rdonly(sb)` and
`force` is `sbi->options.force`.  Both refusals return `-EINVAL` (the
specification's "would-lose-data" error kind). -/
def journal_gate (need_replay dirty is_ro force : Bool) : Except Errno Unit :=
  if need_replay then
    if ¬ is_ro then .error .EINVAL else .ok ()
  else if dirty then
    if ¬ is_ro ∧ ¬ force then .error .EINVAL else .ok ()
  else .ok ()

/-! ### Attribute definition table (`ntfs_fill_super`, lines 1189-1236) -/

/-- One `struct ATTR_DEF_ENTRY` as used by the loader: its type code
(`le32`) and maximal attribute size (`le64`). -/
structure ATTR_DEF_ENTRY where
  type : Nat
  max_sz : Nat
  deriving DecidableEq

/-- `ATTR_STD` from `ntfs.h` (not in this excerpt): the type code of the
standard-information attribute, `0x10`, required of the first table
entry. -/
def ATTR_STD : Nat := 0x10

/-- The scan of `super.c` lines 1223-1235: keep consuming entries while
the current entry's type has a zero low nibble (`!(t32 & 0xF)`) and
strictly exceeds the previous entry's type (`!(t[-1].type >= t32)`);
stop at the first violation. -/
def attrdef_scan (prev : Nat) : List ATTR_DEF_ENTRY → List ATTR_DEF_ENTRY
  | [] => []
  | e :: rest =>
    if e.type &&& 0xF ≠ 0 ∨ prev ≥ e.type then []
    else e :: attrdef_scan e.type rest

/-- The `$AttrDef` loading step of `ntfs_fill_super`
(`super.c` lines 1189-1235), over the table's decoded entry list:
an empty table (`i_size < sizeof(struct ATTR_DEF_ENTRY)`, line 1189)
or a first entry whose type differs from `ATTR_STD` (line 1212) aborts
with `-EINVAL`; otherwise the retained entries are the first entry
followed by the longest valid scan prefix of the rest. -/
def load_def_table (entries : List ATTR_DEF_ENTRY) :
    Except Errno (List ATTR_DEF_ENTRY) :=
  match entries with
  | [] => .error .EINVAL
  | e0 :: rest =>
    if e0.type ≠ ATTR_STD then .error .EINVAL
    else .ok (e0 :: attrdef_scan e0.type rest)

/-- The last retained type code: the first entry's type folded through
the retained tail (`t[-1].type` at the point the scan stopped). -/
def last_type (t0 : Nat) (l : List ATTR_DEF_ENTRY) : Nat :=
  l.foldl (fun _ e => e.type) t0

/-- The chain invariant of the retained tail: every entry has a zero low
nibble and a type code strictly above its predecessor's. -/
def chain_ok (prev : Nat) : List ATTR_DEF_ENTRY → Prop
  | [] => True
  | e :: rest => e.type &&& 0xF = 0 ∧ prev < e.type ∧ chain_ok e.type rest

/-! ### Version-3 optional loaders (`ntfs_fill_super`, lines 1292-1336) -/

/-- The bootstrap steps from `$Secure` onwards, for the execution
trace. -/
inductive InitStep where
  | security
  | extend
  | reparse
  | objid
  | root
  deriving DecidableEq

/-- The tail of `ntfs_fill_super` from line 1292: on the newer on-disk
sub-version (`is_ntfs3(sbi)`, i.e. major version at least 3), `$Secure`
failure goes to `out` (fatal), while `$Extend` / `$Extend\$Reparse` /
`$Extend\$ObjId` failures `goto load_root`; the root load result then
decides the mount.  Returns the mount result together with the list of
steps executed. -/
def fill_super_tail (is_ntfs3 : Bool)
    (sec ext rep obj root : Except Errno Unit) :
    Except Errno Unit × List InitStep :=
  if is_ntfs3 then
    match sec with
    | .error e => (.error e, [.security])
    | .ok _ =>
      match ext with
      | .error _ => (root, [.security, .extend, .root])
      | .ok _ =>
        match rep with
        | .error _ => (root, [.security, .extend, .reparse, .root])
        | .ok _ =>
          match obj with
          | .error _ => (root, [.security, .extend, .reparse, .objid, .root])
          | .ok _ => (root, [.security, .extend, .reparse, .objid, .root])
  else (root, [.root])

/-! ### Teardown (`put_ntfs`, lines 473-509) -/

/-- The release actions of `put_ntfs`, in the trace alphabet. -/
inductive TeardownEv where
  | free_new_rec
  | put_shared_upcase
  | free_def_table
  | close_mft_bitmap
  | close_used_bitmap
  | iput_mft
  | iput_security
  | iput_reparse
  | iput_objid
  | iput_volume
  | update_mftmirr
  | clear_indexes
  | free_compress
  | clear_options
  | free_sbi
  deriving DecidableEq

/-- Which system-file inode handles (`sbi->mft.ni`, `sbi->security.ni`,
`sbi->reparse.ni`, `sbi->objid.ni`, `sbi->volume.ni`) are non-NULL when
`put_ntfs` runs. -/
structure SbiHandles where
  mft : Bool
  security : Bool
  reparse : Bool
  objid : Bool
  volume : Bool
  deriving DecidableEq

/-- `put_ntfs` (`super.c` lines 473-509) as the ordered trace of its
release actions; each `iput` is guarded by the corresponding handle
being non-NULL. -/
def put_ntfs (s : SbiHandles) : List TeardownEv :=
  [.free_new_rec, .put_shared_upcase, .free_def_table,
   .close_mft_bitmap, .close_used_bitmap] ++
  (if s.mft then [.iput_mft] else []) ++
  (if s.security then [.iput_security] else []) ++
  (if s.reparse then [.iput_reparse] else []) ++
  (if s.objid then [.iput_objid] else []) ++
  (if s.volume then [.iput_volume] else []) ++
  [.update_mftmirr, .clear_indexes, .free_compress, .clear_options, .free_sbi]

/-- The position of the first occurrence of `e` in trace `l` (length of
`l` when absent). -/
def trace_idx (l : List TeardownEv) (e : TeardownEv) : Nat :=
  l.findIdx (fun x => x == e)

/-! ### Concrete sample inputs used by the witness theorems -/

/-- A well-formed boot sector: 512-byte sectors, 8 sectors per cluster
(4K clusters), 1024-byte records, 4K index blocks, `2^20` sectors. -/
def boot_ok : NTFS_BOOT := {
  system_id := ntfs_signature
  bytes_per_sector0 := 0
  bytes_per_sector1 := 2
  sectors_per_clusters := 8
  record_size := -10
  index_size := -12
  mft_clst := 4
  mft2_clst := 8
  sectors_per_volume := 0x100000
  serial_num := 0x123456789
}

/-- `boot_ok` with a non-power-of-two sector size (`3 << 8 = 768`). -/
def boot_bad_sector : NTFS_BOOT := { boot_ok with bytes_per_sector1 := 3 }

/-- The registry state holding a single live entry `(p, bytes, cnt)` in
the last slot, the other seven slots being free: the state reached from
the zeroed registry by registering one buffer (the C loop installs a new
entry in the last free slot it scanned). -/
def one_entry_reg (p bytes cnt : Nat) : List SharedSlot :=
  [{ ptr := 0, len := 0, cnt := 0 }, { ptr := 0, len := 0, cnt := 0 },
   { ptr := 0, len := 0, cnt := 0 }, { ptr := 0, len := 0, cnt := 0 },
   { ptr := 0, len := 0, cnt := 0 }, { ptr := 0, len := 0, cnt := 0 },
   { ptr := 0, len := 0, cnt := 0 }, { ptr := p, len := bytes, cnt := cnt }]

/-- A teardown state in which every system-file handle is loaded. -/
def all_handles : SbiHandles :=
  { mft := true, security := true, reparse := true, objid := true, volume := true }

/-- The geometry `ntfs_init_from_boot` derives from `boot_ok` on a
512-byte-sector device large enough for the volume. -/
def boot_ok_geo : NtfsGeometry := {
  sector_size := 512
  sector_bits := 9
  cluster_size := 4096
  cluster_bits := 12
  cluster_mask := 4095
  cluster_mask_inv := 18446744073709547520
  mft_lbo := 16384
  mft_lbo2 := 32768
  record_size := 1024
  record_bits := 10
  attr_size_tr := 320
  max_bytes_per_attr := 960
  index_size := 4096
  ser_num := 4886718345
  volume_size := 536870912
  used_bitmap_nbits := 131072
  rec_fix_num := 3
  rec_attr_off := 48
  rec_used := 56
  rec_total := 1024
  s_blocksize := 4096
  block_mask := 4095
  blocks_per_cluster := 1
  volume_blocks := 131072
  maxbytes := 536870911
  maxbytes_sparse := 17592186044415
  forced_ro := false
}

/-! ## Supporting lemmas -/

theorem pow2_go_sound (fuel : Nat) : ∀ n : Nat, pow2_go fuel n = true → ∃ k, n = 2 ^ k := by
  induction fuel with
  | zero => intro n h; simp [pow2_go] at h
  | succ f ih =>
    intro n h
    unfold pow2_go at h
    split at h
    · exact ⟨0, by omega⟩
    · split at h
      · rename_i hne hcond
        obtain ⟨k, hk⟩ := ih (n / 2) h
        simp only [Bool.and_eq_true, decide_eq_true_eq, bne_iff_ne, ne_eq] at hcond
        refine ⟨k + 1, ?_⟩
        have : n = 2 * (n / 2) := by omega
        rw [this, hk, pow_succ]
        ring
      · exact absurd h (by simp)

theorem pow2_go_complete (k : Nat) : ∀ fuel : Nat, k < fuel → pow2_go fuel (2 ^ k) = true := by
  induction k with
  | zero =>
    intro fuel h
    match fuel, h with
    | f + 1, _ => simp [pow2_go]
  | succ k ih =>
    intro fuel h
    match fuel, h with
    | f + 1, h =>
      have h1 : (2 : Nat) ^ (k + 1) ≠ 1 := by
        have : (2 : Nat) ^ (k + 1) = 2 * 2 ^ k := by rw [pow_succ]; ring
        have hp : 0 < (2 : Nat) ^ k := Nat.pos_pow_of_pos _ (by omega)
        omega
      have h2 : (2 : Nat) ^ (k + 1) % 2 = 0 := by
        have : (2 : Nat) ^ (k + 1) = 2 * 2 ^ k := by rw [pow_succ]; ring
        omega
      have h3 : (2 : Nat) ^ (k + 1) / 2 = 2 ^ k := by
        have : (2 : Nat) ^ (k + 1) = 2 * 2 ^ k := by rw [pow_succ]; ring
        omega
      have h4 : (2 : Nat) ^ (k + 1) ≠ 0 := by positivity
      unfold pow2_go
      rw [if_neg h1, if_pos (by simp [h2, h4]), h3]
      exact ih f (by omega)

/-- The kernel's `is_power_of2` decides exactly "is `2^k` for some `k`". -/
theorem is_power_of2_iff (n : Nat) : is_power_of2 n = true ↔ ∃ k, n = 2 ^ k := by
  constructor
  · exact pow2_go_sound (n + 1) n
  · rintro ⟨k, rfl⟩
    exact pow2_go_complete k (2 ^ k + 1) (by have := Nat.lt_two_pow k; omega)

theorem set_shared_go_none (mem : Nat → List Nat) (p bytes : Nat)
    (reg : List SharedSlot) :
    set_shared_go mem p bytes reg = none ↔
      ∀ s ∈ reg, slot_matches mem p bytes s = false := by
  induction reg with
  | nil => simp [set_shared_go]
  | cons s rest ih =>
    by_cases h : slot_matches mem p bytes s = true
    · simp only [set_shared_go, if_pos h]
      constructor
      · intro hc; exact Option.noConfusion hc
      · intro hb
        rw [hb s (List.mem_cons_self s rest)] at h
        exact Bool.noConfusion h
    · have hf : slot_matches mem p bytes s = false := by simpa using h
      cases hgo : set_shared_go mem p bytes rest with
      | none =>
        simp only [set_shared_go, if_neg h, hgo]
        constructor
        · intro _ t ht
          rcases List.mem_cons.mp ht with rfl | ht
          · exact hf
          · exact ih.mp hgo t ht
        · intro _; trivial
      | some v =>
        obtain ⟨rest', r⟩ := v
        simp only [set_shared_go, if_neg h, hgo]
        constructor
        · intro hc; exact Option.noConfusion hc
        · intro hb
          rw [ih.mpr (fun t ht => hb t (List.mem_cons_of_mem s ht))] at hgo
          exact Option.noConfusion hgo

theorem set_shared_go_some (mem : Nat → List Nat) (p bytes : Nat) :
    ∀ (reg reg' : List SharedSlot) (r : Nat),
      set_shared_go mem p bytes reg = some (reg', r) →
      ∃ pre s post, reg = pre ++ s :: post ∧
        (∀ t ∈ pre, slot_matches mem p bytes t = false) ∧
        slot_matches mem p bytes s = true ∧
        reg' = pre ++ { s with cnt := s.cnt + 1 } :: post ∧ r = s.ptr := by
  intro reg
  induction reg with
  | nil => intro reg' r h; simp [set_shared_go] at h
  | cons s rest ih =>
    intro reg' r h
    by_cases hm : slot_matches mem p bytes s = true
    · simp only [set_shared_go, if_pos hm, Option.some.injEq, Prod.mk.injEq] at h
      exact ⟨[], s, rest, by simp, by simp, hm, by simp [h.1.symm], h.2.symm⟩
    · cases hgo : set_shared_go mem p bytes rest with
      | none =>
        simp only [set_shared_go, if_neg hm, hgo] at h
        exact Option.noConfusion h
      | some v =>
        obtain ⟨rest', r'⟩ := v
        simp only [set_shared_go, if_neg hm, hgo, Option.some.injEq,
          Prod.mk.injEq] at h
        obtain ⟨hpre, hs, hpost, h1, h2, h3, h4, h5⟩ := ih rest' r' hgo
        have hmf : slot_matches mem p bytes s = false := by simpa using hm
        refine ⟨s :: hpre, hs, hpost, by simp [h1], ?_, h3, ?_, ?_⟩
        · intro t ht
          rcases List.mem_cons.mp ht with rfl | ht
          · exact hmf
          · exact h2 t ht
        · rw [← h.1, h4]; simp
        · rw [← h.2, h5]

theorem install_last_free_none (p bytes : Nat) (reg : List SharedSlot) :
    install_last_free p bytes reg = none ↔ ∀ s ∈ reg, s.cnt ≠ 0 := by
  induction reg with
  | nil => simp [install_last_free]
  | cons s rest ih =>
    cases hgo : install_last_free p bytes rest with
    | some v =>
      simp only [install_last_free, hgo]
      constructor
      · intro hc; exact Option.noConfusion hc
      · intro hb
        rw [ih.mpr (fun t ht => hb t (List.mem_cons_of_mem s ht))] at hgo
        exact Option.noConfusion hgo
    | none =>
      by_cases h : s.cnt = 0
      · simp only [install_last_free, hgo, if_pos h]
        constructor
        · intro hc; exact Option.noConfusion hc
        · intro hb; exact absurd h (hb s (List.mem_cons_self s rest))
      · simp only [install_last_free, hgo, if_neg h]
        constructor
        · intro _ t ht
          rcases List.mem_cons.mp ht with rfl | ht
          · exact h
          · exact ih.mp hgo t ht
        · intro _; trivial

theorem install_last_free_some (p bytes : Nat) :
    ∀ (reg reg' : List SharedSlot),
      install_last_free p bytes reg = some reg' →
      ∃ pre s post, reg = pre ++ s :: post ∧ s.cnt = 0 ∧
        (∀ t ∈ post, t.cnt ≠ 0) ∧
        reg' = pre ++ { ptr := p, len := bytes, cnt := 1 } :: post := by
  intro reg
  induction reg with
  | nil => intro reg' h; simp [install_last_free] at h
  | cons s rest ih =>
    intro reg' h
    cases hgo : install_last_free p bytes rest with
    | some v =>
      simp only [install_last_free, hgo, Option.some.injEq] at h
      obtain ⟨pre, t, post, h1, h2, h3, h4⟩ := ih v hgo
      refine ⟨s :: pre, t, post, by simp [h1], h2, h3, ?_⟩
      rw [← h, h4]; simp
    | none =>
      by_cases hc : s.cnt = 0
      · simp only [install_last_free, hgo, if_pos hc, Option.some.injEq] at h
        exact ⟨[], s, rest, by simp, hc,
          (install_last_free_none p bytes rest).mp hgo, by rw [← h]; simp⟩
      · simp only [install_last_free, hgo, if_neg hc] at h
        exact Option.noConfusion h

theorem put_shared_go_none (p : Nat) (reg : List SharedSlot) :
    put_shared_go p reg = none ↔
      ∀ s ∈ reg, (s.cnt != 0 && s.ptr == p) = false := by
  induction reg with
  | nil => simp [put_shared_go]
  | cons s rest ih =>
    by_cases h : (s.cnt != 0 && s.ptr == p) = true
    · simp only [put_shared_go, if_pos h]
      constructor
      · intro hc; exact Option.noConfusion hc
      · intro hb
        rw [hb s (List.mem_cons_self s rest)] at h
        exact Bool.noConfusion h
    · have hf : (s.cnt != 0 && s.ptr == p) = false := by simpa using h
      cases hgo : put_shared_go p rest with
      | none =>
        simp only [put_shared_go, if_neg h, hgo]
        constructor
        · intro _ t ht
          rcases List.mem_cons.mp ht with rfl | ht
          · exact hf
          · exact ih.mp hgo t ht
        · intro _; trivial
      | some v =>
        obtain ⟨rest', r⟩ := v
        simp only [put_shared_go, if_neg h, hgo]
        constructor
        · intro hc; exact Option.noConfusion hc
        · intro hb
          rw [ih.mpr (fun t ht => hb t (List.mem_cons_of_mem s ht))] at hgo
          exact Option.noConfusion hgo

/-! ## C3: the shared-table acquire operation -/

/-- C3.  `ntfs_set_shared` (lines 131-157) on an 8-slot registry: when
some occupied slot matches the candidate in length and content, the
first such slot's count is incremented and its stored pointer returned;
when no slot matches and a free slot exists, the candidate is installed
with count 1 (in the last free slot) and returned itself; when no slot
matches and all eight slots are occupied, `NULL` is returned and the
registry is unchanged. -/
theorem ntfs_set_shared_spec (mem : Nat → List Nat) (reg : List SharedSlot)
    (p bytes : Nat) (_hlen : reg.length = 8) :
    ((∃ s ∈ reg, slot_matches mem p bytes s = true) →
      ∃ pre s post, reg = pre ++ s :: post ∧
        (∀ t ∈ pre, slot_matches mem p bytes t = false) ∧
        slot_matches mem p bytes s = true ∧
        ntfs_set_shared mem reg p bytes =
          (pre ++ { s with cnt := s.cnt + 1 } :: post, some s.ptr)) ∧
    ((∀ s ∈ reg, slot_matches mem p bytes s = false) →
      (∃ s ∈ reg, s.cnt = 0) →
      ∃ pre s post, reg = pre ++ s :: post ∧ s.cnt = 0 ∧
        ntfs_set_shared mem reg p bytes =
          (pre ++ { ptr := p, len := bytes, cnt := 1 } :: post, some p)) ∧
    ((∀ s ∈ reg, slot_matches mem p bytes s = false) →
      (∀ s ∈ reg, s.cnt ≠ 0) →
      ntfs_set_shared mem reg p bytes = (reg, none)) := by
  refine ⟨?_, ?_, ?_⟩
  · rintro ⟨s0, hs0, hm0⟩
    cases hgo : set_shared_go mem p bytes reg with
    | none =>
      exact absurd hm0 (by rw [(set_shared_go_none mem p bytes reg).mp hgo s0 hs0]; simp)
    | some v =>
      obtain ⟨reg', r⟩ := v
      obtain ⟨pre, s, post, h1, h2, h3, h4, h5⟩ := set_shared_go_some mem p bytes reg reg' r hgo
      exact ⟨pre, s, post, h1, h2, h3, by rw [ntfs_set_shared, hgo, h4, h5]⟩
  · intro hno hfree
    have hgo : set_shared_go mem p bytes reg = none :=
      (set_shared_go_none mem p bytes reg).mpr hno
    cases hin : install_last_free p bytes reg with
    | none =>
      obtain ⟨s0, hs0, hc0⟩ := hfree
      exact absurd hc0 ((install_last_free_none p bytes reg).mp hin s0 hs0)
    | some reg' =>
      obtain ⟨pre, s, post, h1, h2, _, h4⟩ := install_last_free_some p bytes reg reg' hin
      exact ⟨pre, s, post, h1, h2, by rw [ntfs_set_shared, hgo, hin, h4]⟩
  · intro hno hocc
    have hgo : set_shared_go mem p bytes reg = none :=
      (set_shared_go_none mem p bytes reg).mpr hno
    have hin : install_last_free p bytes reg = none :=
      (install_last_free_none p bytes reg).mpr hocc
    rw [ntfs_set_shared, hgo, hin]

/-- Witness for C3: the three acquire cases at concrete inputs — a
match against an occupied identical slot, an install into a free
registry, and a full registry of non-matching entries. -/
theorem ntfs_set_shared_spec_witness :
    (∃ pre s post,
      one_entry_reg 1 2 3 = pre ++ s :: post ∧
        (∀ t ∈ pre, slot_matches (fun _ => [7, 7]) 9 2 t = false) ∧
        slot_matches (fun _ => [7, 7]) 9 2 s = true ∧
        ntfs_set_shared (fun _ => [7, 7]) (one_entry_reg 1 2 3) 9 2 =
          (pre ++ { s with cnt := s.cnt + 1 } :: post, some s.ptr)) ∧
    (∃ pre s post, s_shared_init = pre ++ s :: post ∧ s.cnt = 0 ∧
      ntfs_set_shared (fun _ => [7, 7]) s_shared_init 9 2 =
        (pre ++ { ptr := 9, len := 2, cnt := 1 } :: post, some 9)) ∧
    ntfs_set_shared (fun _ => [7, 7])
        (List.replicate 8 { ptr := 5, len := 1, cnt := 1 }) 9 2 =
      (List.replicate 8 { ptr := 5, len := 1, cnt := 1 }, none) :=
  ⟨(ntfs_set_shared_spec (fun _ => [7, 7]) (one_entry_reg 1 2 3) 9 2
      (by decide)).1 (by decide),
   (ntfs_set_shared_spec (fun _ => [7, 7]) s_shared_init 9 2
      (by decide)).2.1 (by decide) (by decide),
   (ntfs_set_shared_spec (fun _ => [7, 7])
      (List.replicate 8 { ptr := 5, len := 1, cnt := 1 }) 9 2
      (by decide)).2.2 (by decide) (by decide)⟩

/-! ## C4: acquire/release round trip of two identical buffers -/

/-- C4.  Starting from the zeroed registry, two acquires of
byte-identical buffers return the same stored handle (the first
caller's), leaving one slot with reference count 2; the first release
returns `NULL` (still shared) and the second returns the buffer. -/
theorem shared_table_roundtrip (mem : Nat → List Nat) (p1 p2 bytes : Nat)
    (h : (mem p1).take bytes = (mem p2).take bytes) :
    ntfs_set_shared mem s_shared_init p1 bytes =
      (one_entry_reg p1 bytes 1, some p1) ∧
    ntfs_set_shared mem (one_entry_reg p1 bytes 1) p2 bytes =
      (one_entry_reg p1 bytes 2, some p1) ∧
    ntfs_put_shared (one_entry_reg p1 bytes 2) p1 =
      (one_entry_reg p1 bytes 1, none) ∧
    ntfs_put_shared (one_entry_reg p1 bytes 1) p1 =
      (one_entry_reg p1 bytes 0, some p1) := by
  refine ⟨?_, ?_, ?_, ?_⟩ <;>
    simp [ntfs_set_shared, set_shared_go, install_last_free, ntfs_put_shared,
      put_shared_go, slot_matches, s_shared_init, one_entry_reg, h]

/-- Witness for C4: the round trip at a concrete memory and pointers. -/
theorem shared_table_roundtrip_witness :
    ntfs_set_shared (fun _ => [7, 7, 7]) s_shared_init 5 2 =
      (one_entry_reg 5 2 1, some 5) ∧
    ntfs_set_shared (fun _ => [7, 7, 7]) (one_entry_reg 5 2 1) 6 2 =
      (one_entry_reg 5 2 2, some 5) ∧
    ntfs_put_shared (one_entry_reg 5 2 2) 5 = (one_entry_reg 5 2 1, none) ∧
    ntfs_put_shared (one_entry_reg 5 2 1) 5 = (one_entry_reg 5 2 0, some 5) :=
  shared_table_roundtrip (fun _ => [7, 7, 7]) 5 6 2 rfl

/-! ## C10: releasing an unregistered pointer -/

/-- C10.  `ntfs_put_shared` on a pointer held by no occupied slot
returns that pointer (sole ownership) and leaves the registry
unchanged. -/
theorem ntfs_put_shared_unregistered (reg : List SharedSlot) (p : Nat)
    (h : ∀ s ∈ reg, s.cnt ≠ 0 → s.ptr ≠ p) :
    ntfs_put_shared reg p = (reg, some p) := by
  have hgo : put_shared_go p reg = none := by
    rw [put_shared_go_none]
    intro s hs
    by_cases hc : s.cnt = 0
    · simp [hc]
    · simp [hc, h s hs hc]
  rw [ntfs_put_shared, hgo]

/-- Witness for C10: releasing a never-registered pointer against a
registry with one live entry and one free slot. -/
theorem ntfs_put_shared_unregistered_witness :
    ntfs_put_shared
        [{ ptr := 1, len := 4, cnt := 2 }, { ptr := 0, len := 0, cnt := 0 }] 5 =
      ([{ ptr := 1, len := 4, cnt := 2 }, { ptr := 0, len := 0, cnt := 0 }],
        some 5) :=
  ntfs_put_shared_unregistered
    [{ ptr := 1, len := 4, cnt := 2 }, { ptr := 0, len := 0, cnt := 0 }] 5
    (by decide)

/-! ## C1: the journal replay gate -/

/-- C1.  At the journal gate of `ntfs_fill_super` (lines 1066-1083): a
dirty volume without the `force` option refuses a read-write mount with
`-EINVAL` (the would-lose-data refusal) regardless of the replay status;
an unreplayed journal refuses a read-write mount; and a read-only mount
passes the gate in every state. -/
theorem journal_gate_spec (need_replay dirty is_ro force : Bool) :
    (dirty = true → force = false → is_ro = false →
      journal_gate need_replay dirty is_ro force = .error .EINVAL) ∧
    (need_replay = true → is_ro = false →
      journal_gate need_replay dirty is_ro force = .error .EINVAL) ∧
    (is_ro = true → journal_gate need_replay dirty is_ro force = .ok ()) := by
  revert need_replay dirty is_ro force
  decide

/-- Witness for C1: the three cases of the gate at concrete inputs. -/
theorem journal_gate_spec_witness :
    journal_gate false true false false = .error .EINVAL ∧
    journal_gate true false false true = .error .EINVAL ∧
    journal_gate true true true false = .ok () :=
  ⟨(journal_gate_spec false true false false).1 rfl rfl rfl,
   (journal_gate_spec true false false true).2.1 rfl rfl,
   (journal_gate_spec true true true false).2.2 rfl⟩

/-! ## C7: the attribute-definition table loader -/

theorem attrdef_scan_spec (l : List ATTR_DEF_ENTRY) : ∀ prev : Nat,
    ∃ rem, l = attrdef_scan prev l ++ rem ∧
      chain_ok prev (attrdef_scan prev l) ∧
      (rem = [] ∨ ∃ bad rem', rem = bad :: rem' ∧
        (bad.type &&& 0xF ≠ 0 ∨ last_type prev (attrdef_scan prev l) ≥ bad.type)) := by
  induction l with
  | nil => intro prev; exact ⟨[], rfl, trivial, Or.inl rfl⟩
  | cons e rest ih =>
    intro prev
    by_cases h : e.type &&& 0xF ≠ 0 ∨ prev ≥ e.type
    · refine ⟨e :: rest, ?_, ?_, Or.inr ⟨e, rest, rfl, ?_⟩⟩
      · rw [attrdef_scan, if_pos h]; rfl
      · rw [attrdef_scan, if_pos h]; trivial
      · rw [attrdef_scan, if_pos h]; exact h
    · obtain ⟨rem, h1, h2, h3⟩ := ih e.type
      have hp := h
      push_neg at hp
      refine ⟨rem, ?_, ?_, ?_⟩
      · rw [attrdef_scan, if_neg h, List.cons_append]
        exact congrArg (e :: ·) h1
      · rw [attrdef_scan, if_neg h]
        exact ⟨hp.1, hp.2, h2⟩
      · rcases h3 with h3 | ⟨bad, rem', hr, hv⟩
        · exact Or.inl h3
        · refine Or.inr ⟨bad, rem', hr, ?_⟩
          rw [attrdef_scan, if_neg h]
          exact hv

/-- C7.  The `$AttrDef` loader (lines 1189-1235): with a first entry of
the sentinel type `ATTR_STD`, the retained table is the first entry plus
the longest prefix of the remaining entries whose type codes strictly
increase and have a zero low nibble, truncation being non-fatal (`.ok`);
in particular a second entry with a type code at most the first's leaves
exactly one entry; a first entry of any other type aborts with
`-EINVAL`. -/
theorem load_def_table_spec (e0 : ATTR_DEF_ENTRY) (rest : List ATTR_DEF_ENTRY) :
    (e0.type = ATTR_STD →
      ∃ tail rem, load_def_table (e0 :: rest) = .ok (e0 :: tail) ∧
        rest = tail ++ rem ∧ chain_ok e0.type tail ∧
        (rem = [] ∨ ∃ bad rem', rem = bad :: rem' ∧
          (bad.type &&& 0xF ≠ 0 ∨ last_type e0.type tail ≥ bad.type))) ∧
    (∀ e1 r2, e0.type = ATTR_STD → rest = e1 :: r2 → e1.type ≤ e0.type →
      load_def_table (e0 :: rest) = .ok [e0]) ∧
    (e0.type ≠ ATTR_STD → load_def_table (e0 :: rest) = .error .EINVAL) := by
  refine ⟨?_, ?_, ?_⟩
  · intro h0
    obtain ⟨rem, h1, h2, h3⟩ := attrdef_scan_spec rest e0.type
    exact ⟨attrdef_scan e0.type rest, rem,
      by rw [load_def_table, if_neg (by simp [h0])], h1, h2, h3⟩
  · rintro e1 r2 h0 rfl hle
    rw [load_def_table, if_neg (by simp [h0]), attrdef_scan,
      if_pos (Or.inr hle)]
  · intro h0
    rw [load_def_table, if_pos h0]

/-- Witness for C7: a two-entry table whose second entry repeats the
first entry's type code keeps exactly one entry; a table led by a
non-sentinel entry aborts. -/
theorem load_def_table_spec_witness :
    load_def_table [{ type := 0x10, max_sz := 8 }, { type := 0x10, max_sz := 4 }] =
      .ok [{ type := 0x10, max_sz := 8 }] ∧
    load_def_table [{ type := 0x20, max_sz := 0 }] = .error .EINVAL :=
  ⟨(load_def_table_spec { type := 0x10, max_sz := 8 }
      [{ type := 0x10, max_sz := 4 }]).2.1
      { type := 0x10, max_sz := 4 } [] rfl rfl (by decide),
   (load_def_table_spec { type := 0x20, max_sz := 0 } []).2.2 (by decide)⟩

/-! ## C8: fatal and non-fatal version-3 bootstrap steps -/

/-- C8.  In the version-3 tail of `ntfs_fill_super` (lines 1292-1336):
a `$Secure` failure aborts the mount; a failure of `$Extend`,
`$Extend\$Reparse` or `$Extend\$ObjId` skips the remaining optional
steps and jumps straight to the root load, whose result alone then
decides the mount — so the mount still succeeds when the root loads. -/
theorem fill_super_tail_spec (sec ext rep obj root : Except Errno Unit) :
    (∀ e, sec = .error e →
      fill_super_tail true sec ext rep obj root = (.error e, [.security])) ∧
    (∀ e, sec = .ok () → ext = .error e →
      fill_super_tail true sec ext rep obj root =
        (root, [.security, .extend, .root])) ∧
    (∀ e, sec = .ok () → ext = .ok () → rep = .error e →
      fill_super_tail true sec ext rep obj root =
        (root, [.security, .extend, .reparse, .root])) ∧
    (∀ e, sec = .ok () → ext = .ok () → rep = .ok () → obj = .error e →
      fill_super_tail true sec ext rep obj root =
        (root, [.security, .extend, .reparse, .objid, .root])) ∧
    (sec = .ok () → root = .ok () →
      (fill_super_tail true sec ext rep obj root).1 = .ok ()) := by
  refine ⟨?_, ?_, ?_, ?_, ?_⟩
  · rintro e rfl; rfl
  · rintro e rfl rfl; rfl
  · rintro e rfl rfl rfl; rfl
  · rintro e rfl rfl rfl rfl; rfl
  · rintro rfl rfl
    cases ext with
    | error _ => rfl
    | ok u =>
      cases u
      cases rep with
      | error _ => rfl
      | ok u =>
        cases u
        cases obj with
        | error _ => rfl
        | ok u => cases u; rfl

/-- Witness for C8: a `$Secure` failure aborts with that error; an
`$Extend` failure still reaches a successful mount through the root
load, skipping the reparse and object-ID steps. -/
theorem fill_super_tail_spec_witness :
    fill_super_tail true (.error .EIO_dev) (.ok ()) (.ok ()) (.ok ()) (.ok ()) =
      (.error .EIO_dev, [.security]) ∧
    fill_super_tail true (.ok ()) (.error .ENOMEM) (.ok ()) (.ok ()) (.ok ()) =
      (.ok (), [.security, .extend, .root]) ∧
    (fill_super_tail true (.ok ()) (.error .ENOMEM) (.ok ()) (.ok ())
      (.ok ())).1 = .ok () :=
  ⟨(fill_super_tail_spec (.error .EIO_dev) (.ok ()) (.ok ()) (.ok ()) (.ok ())).1
      .EIO_dev rfl,
   (fill_super_tail_spec (.ok ()) (.error .ENOMEM) (.ok ()) (.ok ())
      (.ok ())).2.1 .ENOMEM rfl rfl,
   (fill_super_tail_spec (.ok ()) (.error .ENOMEM) (.ok ()) (.ok ())
      (.ok ())).2.2.2.2 rfl rfl⟩

/-! ## C9: the teardown order of `put_ntfs` -/

/-- Counterexample to C9 as stated: in `put_ntfs` with every handle
loaded, the final `ntfs_update_mftmirr` write-back happens *after*
`iput` of the MFT inode (line 497 versus line 483), not before it. -/
theorem put_ntfs_mirror_not_before_mft :
    ¬ trace_idx (put_ntfs all_handles) .update_mftmirr <
        trace_idx (put_ntfs all_handles) .iput_mft := by
  decide

/-- C9 (amended).  `put_ntfs` releases, in order: the scratch record
template, the shared case-table reference, the attribute-definition
buffer, the MFT bitmap, the cluster bitmap, then the system-file handles
(MFT, security, reparse, object-ID, volume-info last), and only then
writes the MFT mirror back one final time — after the MFT handle is
released, not before. -/
theorem put_ntfs_order (s : SbiHandles) (h : s = all_handles) :
    trace_idx (put_ntfs s) .free_new_rec <
      trace_idx (put_ntfs s) .put_shared_upcase ∧
    trace_idx (put_ntfs s) .put_shared_upcase <
      trace_idx (put_ntfs s) .free_def_table ∧
    trace_idx (put_ntfs s) .free_def_table <
      trace_idx (put_ntfs s) .close_mft_bitmap ∧
    trace_idx (put_ntfs s) .close_mft_bitmap <
      trace_idx (put_ntfs s) .close_used_bitmap ∧
    trace_idx (put_ntfs s) .close_used_bitmap <
      trace_idx (put_ntfs s) .iput_mft ∧
    trace_idx (put_ntfs s) .iput_mft < trace_idx (put_ntfs s) .iput_security ∧
    trace_idx (put_ntfs s) .iput_security <
      trace_idx (put_ntfs s) .iput_reparse ∧
    trace_idx (put_ntfs s) .iput_reparse < trace_idx (put_ntfs s) .iput_objid ∧
    trace_idx (put_ntfs s) .iput_objid < trace_idx (put_ntfs s) .iput_volume ∧
    trace_idx (put_ntfs s) .iput_volume <
      trace_idx (put_ntfs s) .update_mftmirr := by
  subst h
  decide

/-! ## C2, C5, C6: the boot-sector geometry parser -/

set_option maxHeartbeats 2000000 in
theorem init_checks (boot : NTFS_BOOT) (ss dev : Nat) (a : Bool) :
    (exceptOk (ntfs_init_from_boot boot ss dev a) = true →
      geometry_checks boot) ∧
    (¬ geometry_checks boot →
      ntfs_init_from_boot boot ss dev a = .error .EINVAL) := by
  unfold ntfs_init_from_boot
  split_ifs with h1 h2 h3 h4 h5 h6 h7 h8 h9 h10 h11 <;>
    try exact ⟨fun hx => absurd hx (by simp [exceptOk]), fun _ => rfl⟩
  all_goals
    push_neg at h2
    exact ⟨fun _ => ⟨h2.2.2, h3, h2.2.1, Nat.not_lt.mp h8⟩,
      fun hviol => absurd ⟨h2.2.2, h3, h2.2.1, Nat.not_lt.mp h8⟩ hviol⟩

set_option maxHeartbeats 2000000 in
theorem init_dev_irrelevant (boot : NTFS_BOOT) (ss d1 d2 : Nat) (a : Bool) :
    (ntfs_init_from_boot boot ss d1 a = .ok (mk_geometry boot ss d1) ∧
      ntfs_init_from_boot boot ss d2 a = .ok (mk_geometry boot ss d2)) ∨
    (∃ e, ntfs_init_from_boot boot ss d1 a = .error e ∧
      ntfs_init_from_boot boot ss d2 a = .error e) := by
  unfold ntfs_init_from_boot
  by_cases h1 : boot.system_id ≠ ntfs_signature
  · simp only [if_pos h1]; exact Or.inr ⟨.EINVAL, rfl, rfl⟩
  simp only [if_neg h1]
  by_cases h2 : boot.bytes_per_sector0 ≠ 0 ∨
      derived_sector_size boot < SECTOR_SIZE ∨
      ¬ is_power_of2 (derived_sector_size boot) = true
  · simp only [if_pos h2]; exact Or.inr ⟨.EINVAL, rfl, rfl⟩
  simp only [if_neg h2]
  by_cases h3 : ¬ is_power_of2 (true_sectors_per_clst boot.sectors_per_clusters) = true
  · simp only [if_pos h3]; exact Or.inr ⟨.EINVAL, rfl, rfl⟩
  simp only [if_neg h3]
  by_cases h4 : u64 (boot.mft_clst * true_sectors_per_clst boot.sectors_per_clusters) ≥
      boot.sectors_per_volume
  · simp only [if_pos h4]; exact Or.inr ⟨.EINVAL, rfl, rfl⟩
  simp only [if_neg h4]
  by_cases h5 : u64 (boot.mft2_clst * true_sectors_per_clst boot.sectors_per_clusters) ≥
      boot.sectors_per_volume
  · simp only [if_pos h5]; exact Or.inr ⟨.EINVAL, rfl, rfl⟩
  simp only [if_neg h5]
  by_cases h6 : (boot.record_size < 0 ∧
        SECTOR_SIZE > shl32 2 (- boot.record_size).toNat) ∨
      (boot.record_size ≥ 0 ∧ ¬ is_power_of2 boot.record_size.toNat = true)
  · simp only [if_pos h6]; exact Or.inr ⟨.EINVAL, rfl, rfl⟩
  simp only [if_neg h6]
  by_cases h7 : (boot.index_size < 0 ∧
        SECTOR_SIZE > shl32 2 (- boot.index_size).toNat) ∨
      (boot.index_size ≥ 0 ∧ ¬ is_power_of2 boot.index_size.toNat = true)
  · simp only [if_pos h7]; exact Or.inr ⟨.EINVAL, rfl, rfl⟩
  simp only [if_neg h7]
  by_cases h8 : derived_cluster_size boot < derived_sector_size boot
  · simp only [if_pos h8]; exact Or.inr ⟨.EINVAL, rfl, rfl⟩
  simp only [if_neg h8]
  by_cases h9 : derived_record_size boot > MAXIMUM_BYTES_PER_MFT
  · simp only [if_pos h9]; exact Or.inr ⟨.EINVAL, rfl, rfl⟩
  simp only [if_neg h9]
  by_cases h10 : derived_clusters boot >>> 32 ≠ 0
  · simp only [if_pos h10]; exact Or.inr ⟨.EINVAL, rfl, rfl⟩
  simp only [if_neg h10]
  by_cases h11 : ¬ a = true
  · simp only [if_pos h11]; exact Or.inr ⟨.ENOMEM, rfl, rfl⟩
  simp only [if_neg h11]
  exact Or.inl ⟨by first | rfl | trivial, by first | rfl | trivial⟩

theorem derived_cluster_pow2 (boot : NTFS_BOOT)
    (hsec : is_power_of2 (derived_sector_size boot) = true)
    (hsct : is_power_of2 (true_sectors_per_clst boot.sectors_per_clusters) = true)
    (hle : derived_sector_size boot ≤ derived_cluster_size boot)
    (hpos : 0 < derived_sector_size boot) :
    is_power_of2 (derived_cluster_size boot) = true := by
  obtain ⟨j, hj⟩ := (is_power_of2_iff _).mp hsec
  obtain ⟨k, hk⟩ := (is_power_of2_iff _).mp hsct
  rw [is_power_of2_iff]
  have hc : derived_cluster_size boot = 2 ^ (j + k) % 2 ^ 32 := by
    rw [derived_cluster_size, u32, hj, hk, pow_add]
  by_cases hlt : j + k < 32
  · exact ⟨j + k,
      by rw [hc, Nat.mod_eq_of_lt (Nat.pow_lt_pow_right (by omega) hlt)]⟩
  · exfalso
    obtain ⟨c, hc2⟩ : (2 : Nat) ^ 32 ∣ 2 ^ (j + k) := pow_dvd_pow 2 (by omega)
    have hz : (2 : Nat) ^ (j + k) % 2 ^ 32 = 0 := by rw [hc2, Nat.mul_mod_right]
    rw [hc, hz] at hle
    omega

/-- C2.  `ntfs_init_from_boot` accepts a boot sector only when the
derived sector size and the derived cluster size are powers of two with
cluster size at least sector size (lines 740-748 and 791-798); a boot
sector violating any of these conditions is rejected with `-EINVAL`. -/
theorem boot_geometry_pow2 (boot : NTFS_BOOT) (ss dev : Nat) (a : Bool) :
    (exceptOk (ntfs_init_from_boot boot ss dev a) = true →
      is_power_of2 (derived_sector_size boot) = true ∧
      is_power_of2 (derived_cluster_size boot) = true ∧
      derived_sector_size boot ≤ derived_cluster_size boot) ∧
    (¬ (is_power_of2 (derived_sector_size boot) = true ∧
        is_power_of2 (derived_cluster_size boot) = true ∧
        derived_sector_size boot ≤ derived_cluster_size boot) →
      ntfs_init_from_boot boot ss dev a = .error .EINVAL) := by
  constructor
  · intro h
    obtain ⟨hsec, hsct, hmin, hle⟩ := (init_checks boot ss dev a).1 h
    refine ⟨hsec, derived_cluster_pow2 boot hsec hsct hle ?_, hle⟩
    unfold SECTOR_SIZE at hmin
    omega
  · intro hviol
    apply (init_checks boot ss dev a).2
    intro hch
    obtain ⟨hsec, hsct, hmin, hle⟩ := hch
    apply hviol
    refine ⟨hsec, derived_cluster_pow2 boot hsec hsct hle ?_, hle⟩
    unfold SECTOR_SIZE at hmin
    omega

/-- Witness for C2: the well-formed sample boot sector satisfies the
geometry invariants; a sector size of 768 (not a power of two) is
rejected with `-EINVAL`. -/
theorem boot_geometry_pow2_witness :
    (is_power_of2 (derived_sector_size boot_ok) = true ∧
      is_power_of2 (derived_cluster_size boot_ok) = true ∧
      derived_sector_size boot_ok ≤ derived_cluster_size boot_ok) ∧
    ntfs_init_from_boot boot_bad_sector 512 1073741824 true = .error .EINVAL :=
  ⟨(boot_geometry_pow2 boot_ok 512 1073741824 true).1 (by decide),
   (boot_geometry_pow2 boot_bad_sector 512 1073741824 true).2 (by decide)⟩

/-- Counterexample to C5 as stated: the sectors-per-cluster byte `0x80`
(signed value `-128`) is decoded literally as 128 by
`true_sectors_per_clst` (its guard is `<= 0x80` on the unsigned byte),
not as `2^128` as the signed-byte rule prescribes. -/
theorem true_sectors_per_clst_not_signed_rule :
    true_sectors_per_clst 0x80 ≠ spec_signed_decode 0x80 := by decide

/-- C5 (amended).  The decode of the sectors-per-cluster byte agrees
with the signed-byte rule on bytes `0x01`-`0x7F` and `0xE1`-`0xFF`;
bytes `0x00`-`0x80` are taken literally (so `0x00` decodes to 0 and
`0x80` to 128, not via the signed rule), and bytes `0x81`-`0xFF` decode
as `2^((256 - v) mod 32)` (the 32-bit shift-count masking of the C
expression `1u << (0 - v)`); the mount proceeds only when the decoded
count is a power of two. -/
theorem true_sectors_per_clst_amended (b : Nat) (boot : NTFS_BOOT)
    (ss dev : Nat) (a : Bool) :
    (1 ≤ b → b ≤ 0x7F → true_sectors_per_clst b = spec_signed_decode b) ∧
    (0xE1 ≤ b → b ≤ 0xFF → true_sectors_per_clst b = spec_signed_decode b) ∧
    (b ≤ 0x80 → true_sectors_per_clst b = b) ∧
    (0x81 ≤ b → b ≤ 0xFF → true_sectors_per_clst b = 2 ^ ((256 - b) % 32)) ∧
    (exceptOk (ntfs_init_from_boot boot ss dev a) = true →
      is_power_of2 (true_sectors_per_clst boot.sectors_per_clusters) = true) := by
  refine ⟨?_, ?_, ?_, ?_, ?_⟩
  · intro hb1 hb2
    rw [true_sectors_per_clst, if_pos (by omega : b ≤ 0x80), spec_signed_decode]
    simp only [if_pos (show b < 128 by omega)]
    rw [if_pos (show (0 : Int) < (b : Int) by exact_mod_cast hb1)]
  · intro hb1 hb2
    rw [true_sectors_per_clst, if_neg (by omega : ¬ b ≤ 0x80), spec_signed_decode]
    simp only [if_neg (show ¬ b < 128 by omega)]
    rw [if_neg (show ¬ (0 : Int) < (b : Int) - 256 by omega)]
    rw [shl32, u32, Nat.shiftLeft_eq, one_mul,
      Nat.mod_eq_of_lt (show 256 - b < 32 by omega)]
    have hx : (-((b : Int) - 256)).toNat = 256 - b := by omega
    rw [hx]
    exact Nat.mod_eq_of_lt (Nat.pow_lt_pow_right (by omega) (by omega))
  · intro hb
    rw [true_sectors_per_clst, if_pos hb]
  · intro hb1 hb2
    rw [true_sectors_per_clst, if_neg (by omega : ¬ b ≤ 0x80), shl32, u32,
      Nat.shiftLeft_eq, one_mul]
    exact Nat.mod_eq_of_lt
      (Nat.pow_lt_pow_right (by omega) (Nat.mod_lt _ (by omega)))
  · intro h
    exact ((init_checks boot ss dev a).1 h).2.1

/-- Witness for C5's amended decode rule: one byte from each range, and
the power-of-two gate on the accepted sample boot sector. -/
theorem true_sectors_per_clst_amended_witness :
    true_sectors_per_clst 2 = spec_signed_decode 2 ∧
    true_sectors_per_clst 0xFF = spec_signed_decode 0xFF ∧
    true_sectors_per_clst 0x80 = 0x80 ∧
    true_sectors_per_clst 0x90 = 2 ^ ((256 - 0x90) % 32) ∧
    is_power_of2 (true_sectors_per_clst boot_ok.sectors_per_clusters) = true :=
  ⟨(true_sectors_per_clst_amended 2 boot_ok 512 0 true).1
      (by decide) (by decide),
   (true_sectors_per_clst_amended 0xFF boot_ok 512 0 true).2.1
      (by decide) (by decide),
   (true_sectors_per_clst_amended 0x80 boot_ok 512 0 true).2.2.1 (by decide),
   (true_sectors_per_clst_amended 0x90 boot_ok 512 0 true).2.2.2.1
      (by decide) (by decide),
   (true_sectors_per_clst_amended 8 boot_ok 512 1073741824 true).2.2.2.2
      (by decide)⟩

/-- C6.  A boot sector the parser accepts on a large enough device is
also accepted on a device smaller than the declared filesystem size
(lines 825-835): the parse does not fail, yields the identical derived
geometry, and differs only in forcing the mount read-only. -/
theorem raw_volume_forced_read_only (boot : NTFS_BOOT) (ss d1 d2 : Nat)
    (a : Bool) (g : NtfsGeometry)
    (h : ntfs_init_from_boot boot ss d1 a = .ok g)
    (hdev : adjusted_dev_size boot ss d2 < derived_fs_size boot) :
    ntfs_init_from_boot boot ss d2 a = .ok { g with forced_ro := true } := by
  rcases init_dev_irrelevant boot ss d1 d2 a with ⟨ha, hb⟩ | ⟨e, ha, hb⟩
  · rw [h] at ha
    injection ha with ha'
    subst ha'
    rw [hb]
    have hg : mk_geometry boot ss d2 =
        { mk_geometry boot ss d1 with forced_ro := true } := by
      simp [mk_geometry, hdev]
    rw [hg]
  · rw [h] at ha
    exact Except.noConfusion ha

/-- Witness for C6: the sample boot sector (declared size about 512 MB)
parsed against a 1000-byte device mounts read-only with the same
geometry it derives on a 1 GB device. -/
theorem raw_volume_forced_read_only_witness :
    ntfs_init_from_boot boot_ok 512 1000 true =
      .ok { boot_ok_geo with forced_ro := true } :=
  raw_volume_forced_read_only boot_ok 512 1073741824 1000 true boot_ok_geo
    rfl (by decide)

/-- Witness for C9's amended ordering at the all-handles state. -/
theorem put_ntfs_order_witness :
    trace_idx (put_ntfs all_handles) .free_new_rec <
      trace_idx (put_ntfs all_handles) .put_shared_upcase ∧
    trace_idx (put_ntfs all_handles) .put_shared_upcase <
      trace_idx (put_ntfs all_handles) .free_def_table ∧
    trace_idx (put_ntfs all_handles) .free_def_table <
      trace_idx (put_ntfs all_handles) .close_mft_bitmap ∧
    trace_idx (put_ntfs all_handles) .close_mft_bitmap <
      trace_idx (put_ntfs all_handles) .close_used_bitmap ∧
    trace_idx (put_ntfs all_handles) .close_used_bitmap <
      trace_idx (put_ntfs all_handles) .iput_mft ∧
    trace_idx (put_ntfs all_handles) .iput_mft <
      trace_idx (put_ntfs all_handles) .iput_security ∧
    trace_idx (put_ntfs all_handles) .iput_security <
      trace_idx (put_ntfs all_handles) .iput_reparse ∧
    trace_idx (put_ntfs all_handles) .iput_reparse <
      trace_idx (put_ntfs all_handles) .iput_objid ∧
    trace_idx (put_ntfs all_handles) .iput_objid <
      trace_idx (put_ntfs all_handles) .iput_volume ∧
    trace_idx (put_ntfs all_handles) .iput_volume <
      trace_idx (put_ntfs all_handles) .update_mftmirr :=
  put_ntfs_order all_handles rfl

end Ntfs3
